import Mathlib

/-!
# Verification of `OrganizationsManager` (node-auth0)

A shallow embedding of `src/management/OrganizationsManager.js`.

JavaScript values relevant to the module are modelled by the inductive
type `JSValue`.  The constructor `OrganizationsManager.construct` mirrors
the source constructor line by line: the three `ArgumentError` guards,
the `clientOptions` object, the `Auth0RestClient` construction and the
`RetryRestClient` wrapping.  Fallible construction is embedded as
`Except ArgumentError OrganizationsManager`, so a thrown `ArgumentError`
corresponds to an `.error` result in which no `resource` field exists.

The five exposed operations are generated in the source by
`utils.wrapPropertyMethod` (file `src/utils.js`, not part of the sources
in scope); that delegation machinery and the behaviour of the wrapped
client are modelled from the specification where noted.
-/

/-- A JavaScript value, restricted to the shapes the module inspects:
`undefined`, `null`, booleans, numbers, strings, plain objects (a list of
named fields), arrays, and functions (opaque). -/
inductive JSValue where
  | undefined : JSValue
  | null : JSValue
  | boolean : Bool → JSValue
  | number : Int → JSValue
  | str : String → JSValue
  | obj : List (String × JSValue) → JSValue
  | arr : List JSValue → JSValue
  | func : JSValue

/-- The string returned by the JavaScript `typeof` operator.  Note that
`typeof null` and `typeof` of an array are both the string below bound to
`typeObject`. -/
def typeofJS : JSValue → String
  | .undefined => "undefined"
  | .null => "object"
  | .boolean _ => "boolean"
  | .number _ => "number"
  | .str _ => "string"
  | .obj _ => "object"
  | .arr _ => "object"
  | .func => "function"

/-- The `typeof` result for plain objects, `null` and arrays. -/
def typeObject : String := "object"

/-- The `typeof` result for strings. -/
def typeString : String := "string"

/-- First field with the given name in an object's field list. -/
def lookupField : List (String × JSValue) → String → Option JSValue
  | [], _ => none
  | (k, v) :: rest, name => if k = name then some v else lookupField rest name

/-- JavaScript property access `v[name]` as used by the module: a named
property of a plain object, `undefined` when absent; `undefined` on every
other value the constructor can reach (after the object guard the module
reads properties only of objects and arrays, and our arrays carry no
named properties). -/
def getProp (v : JSValue) (name : String) : JSValue :=
  match v with
  | .obj fields => (lookupField fields name).getD .undefined
  | _ => .undefined

/-- `v === null` -/
def isNullJS : JSValue → Bool
  | .null => true
  | _ => false

/-- `v === undefined` -/
def isUndefinedJS : JSValue → Bool
  | .undefined => true
  | _ => false

/-- `v.length` for a string value; `0` elsewhere (the module only reads
`.length` after establishing the value is a string). -/
def jsStringLength : JSValue → Nat
  | .str s => s.length
  | _ => 0

/-- The string content of a string value; `""` elsewhere (the module only
concatenates `baseUrl` after establishing it is a string). -/
def jsStringValue : JSValue → String
  | .str s => s
  | _ => ""

/-- Property name `baseUrl`. -/
def baseUrlKey : String := "baseUrl"

/-- Property name `headers`. -/
def headersKey : String := "headers"

/-- Property name `tokenProvider`. -/
def tokenProviderKey : String := "tokenProvider"

/-- Property name `retry`. -/
def retryKey : String := "retry"

/-- The path suffix appended to `options.baseUrl`. -/
def organizationsPath : String := "/organizations/:id"

/-- Guard of the first constructor check:
`options === null || typeof options !== 'object'`. -/
def badOptions (options : JSValue) : Bool :=
  isNullJS options || typeofJS options != typeObject

/-- Guard of the second constructor check:
`options.baseUrl === null || options.baseUrl === undefined`. -/
def missingBaseUrl (options : JSValue) : Bool :=
  isNullJS (getProp options baseUrlKey) || isUndefinedJS (getProp options baseUrlKey)

/-- Guard of the third constructor check:
`'string' !== typeof options.baseUrl || options.baseUrl.length === 0`. -/
def invalidBaseUrl (options : JSValue) : Bool :=
  typeofJS (getProp options baseUrlKey) != typeString
    || jsStringLength (getProp options baseUrlKey) == 0

/-- The `ArgumentError` thrown by the constructor, carrying its message. -/
structure ArgumentError where
  message : String
deriving DecidableEq

/-- Message of the first guard. -/
def msgBadOptions : String := "Must provide manager options"

/-- Message of the second guard. -/
def msgMissingBaseUrl : String := "Must provide a base URL for the API"

/-- Message of the third guard. -/
def msgInvalidBaseUrl : String := "The provided base URL is invalid"

/-- The nested `query` object of `clientOptions`. -/
structure QueryOptions where
  repeatParams : Bool
deriving DecidableEq

/-- The `clientOptions` object handed to `Auth0RestClient`:
`{ headers: options.headers, query: { repeatParams: false } }`. -/
structure ClientOptions where
  headers : JSValue
  query : QueryOptions

/-- The `Auth0RestClient` construction record: the module calls
`new Auth0RestClient(urlTemplate, clientOptions, tokenProvider)`; the
client's implementation is an external collaborator, so the record keeps
exactly the three constructor arguments. -/
structure Auth0RestClient where
  urlTemplate : String
  options : ClientOptions
  tokenProvider : JSValue

/-- The `RetryRestClient` construction record:
`new RetryRestClient(auth0RestClient, options.retry)`. -/
structure RetryRestClient where
  restClient : Auth0RestClient
  retryConfig : JSValue

/-- An `OrganizationsManager` instance after a successful construction:
its single own field `resource` holds the retry-wrapped client. -/
structure OrganizationsManager where
  resource : RetryRestClient

/-- The `OrganizationsManager` constructor, embedded as a function from
the `options` argument to either a thrown `ArgumentError` or the
constructed instance.  The three guards, their order, their messages and
the client construction mirror the source. -/
def OrganizationsManager.construct (options : JSValue) :
    Except ArgumentError OrganizationsManager :=
  if badOptions options then
    .error ⟨msgBadOptions⟩
  else if missingBaseUrl options then
    .error ⟨msgMissingBaseUrl⟩
  else if invalidBaseUrl options then
    .error ⟨msgInvalidBaseUrl⟩
  else
    let clientOptions : ClientOptions :=
      { headers := getProp options headersKey
        query := { repeatParams := false } }
    let auth0RestClient : Auth0RestClient :=
      { urlTemplate := jsStringValue (getProp options baseUrlKey) ++ organizationsPath
        options := clientOptions
        tokenProvider := getProp options tokenProviderKey }
    .ok { resource := { restClient := auth0RestClient
                        retryConfig := getProp options retryKey } }

example :
    OrganizationsManager.construct (.obj [(baseUrlKey, .str ("https://a"))])
      = .ok { resource :=
          { restClient :=
              { urlTemplate := "https://a" ++ organizationsPath
                options := { headers := .undefined, query := { repeatParams := false } }
                tokenProvider := .undefined }
            retryConfig := .undefined } } := rfl

example : OrganizationsManager.construct .null = .error ⟨msgBadOptions⟩ := rfl

example : OrganizationsManager.construct (.arr []) = .error ⟨msgMissingBaseUrl⟩ := rfl

example :
    OrganizationsManager.construct (.obj [(baseUrlKey, .str (""))])
      = .error ⟨msgInvalidBaseUrl⟩ := rfl

example :
    OrganizationsManager.construct (.obj [(baseUrlKey, .number 3)])
      = .error ⟨msgInvalidBaseUrl⟩ := rfl

/-! ## Operational layer

The five operations are installed on the prototype by
`utils.wrapPropertyMethod(OrganizationsManager, name, 'resource.method')`
from `src/utils.js`, which together with the behaviour of the wrapped
client (`RetryRestClient` / `Auth0RestClient`) is outside the sources in
scope.  The definitions below model that layer from the specification. -/

/-- The asynchronous outcome of one client call: a rejection carrying the
error value, or a resolution carrying the result value. -/
abbrev Outcome := Except JSValue JSValue

/-- Modelled from the spec: the method surface of the wrapped REST
client.  The retry decorator "exposes the same method surface" as the
generic client, which "exposes `create`, `getAll`, `get`, `patch`,
`delete`"; each method maps an argument list to an asynchronous
outcome.  Its internals (transport, retries) are external collaborators
and stay abstract. -/
structure ClientBehavior where
  create : List JSValue → Outcome
  getAll : List JSValue → Outcome
  get : List JSValue → Outcome
  patch : List JSValue → Outcome
  delete : List JSValue → Outcome

/-- Modelled from the spec: dynamic method lookup `client[method]` on the
wrapped client, `none` when no such method exists. -/
def ClientBehavior.lookupMethod (c : ClientBehavior) (name : String) :
    Option (List JSValue → Outcome) :=
  match name with
  | "create" => some c.create
  | "getAll" => some c.getAll
  | "get" => some c.get
  | "patch" => some c.patch
  | "delete" => some c.delete
  | _ => none

/-- Modelled from the spec: a constructed manager as the operations see
it — its single own property `resource` holds the wrapped client,
abstracted by its behaviour. -/
structure ManagerState where
  resource : ClientBehavior

/-- Property name `resource`. -/
def resourceKey : String := "resource"

/-- The separator of a `property.method` path, as passed to
`String.prototype.split`. -/
def pathSeparator : Char := '.'

/-- Split a character list at every occurrence of the separator,
accumulating the current segment in reverse. -/
def splitChars (sep : Char) : List Char → List Char → List (List Char)
  | [], acc => [acc.reverse]
  | c :: cs, acc =>
      if c = sep then acc.reverse :: splitChars sep cs []
      else splitChars sep cs (c :: acc)

/-- JavaScript `s.split(sep)` for a single-character separator. -/
def jsSplit (s : String) (sep : Char) : List String :=
  (splitChars sep s.data []).map (fun cs => String.mk cs)

/-- Modelled from the spec: dynamic property lookup `this[property]` on
the manager, which owns exactly the property bound to `resourceKey`. -/
def ManagerState.lookupProperty (m : ManagerState) (name : String) :
    Option ClientBehavior :=
  if name = resourceKey then some m.resource else none

/-- Modelled from the spec: `utils.wrapPropertyMethod` (property-copying
method delegation, `src/utils.js`, not in scope).  The string
`propertyMethod` is split into a property name and a method name at the
separator; the generated operation is `this[property][method]` bound to
`this[property]` — i.e. the wrapped client's method, forwarding its
argument list unchanged.  The result is `none` when the path or the
lookup fails (the operation is not callable). -/
def wrapPropertyMethod (m : ManagerState) (propertyMethod : String) :
    Option (List JSValue → Outcome) :=
  match jsSplit propertyMethod pathSeparator with
  | [property, method] =>
      (m.lookupProperty property).bind fun c => c.lookupMethod method
  | _ => none

/-- Delegation path of `create`. -/
def createPath : String := "resource.create"

/-- Delegation path of `getAll`. -/
def getAllPath : String := "resource.getAll"

/-- Delegation path of `get`. -/
def getPath : String := "resource.get"

/-- Delegation path of `update`. -/
def updatePath : String := "resource.patch"

/-- Delegation path of `delete`. -/
def deletePath : String := "resource.delete"

/-- `organizations.create`, as installed by
`utils.wrapPropertyMethod(OrganizationsManager, 'create', 'resource.create')`. -/
def ManagerState.create (m : ManagerState) : Option (List JSValue → Outcome) :=
  wrapPropertyMethod m createPath

/-- `organizations.getAll`, as installed by
`utils.wrapPropertyMethod(OrganizationsManager, 'getAll', 'resource.getAll')`. -/
def ManagerState.getAll (m : ManagerState) : Option (List JSValue → Outcome) :=
  wrapPropertyMethod m getAllPath

/-- `organizations.get`, as installed by
`utils.wrapPropertyMethod(OrganizationsManager, 'get', 'resource.get')`. -/
def ManagerState.get (m : ManagerState) : Option (List JSValue → Outcome) :=
  wrapPropertyMethod m getPath

/-- `organizations.update`, as installed by
`utils.wrapPropertyMethod(OrganizationsManager, 'update', 'resource.patch')`. -/
def ManagerState.update (m : ManagerState) : Option (List JSValue → Outcome) :=
  wrapPropertyMethod m updatePath

/-- `organizations.delete`, as installed by
`utils.wrapPropertyMethod(OrganizationsManager, 'delete', 'resource.delete')`. -/
def ManagerState.delete (m : ManagerState) : Option (List JSValue → Outcome) :=
  wrapPropertyMethod m deletePath

/-- What a single operation call delivers to the caller: a returned
promise settling to an outcome, or an invocation of the trailing
callback with the `(error, result)` pair. -/
inductive CallResponse where
  | promised : Outcome → CallResponse
  | callbackCalled : JSValue → JSValue → CallResponse

/-- Modelled from the spec: a raw client invocation may either misbehave
with a synchronous throw or produce an asynchronous outcome. -/
inductive RawResult where
  | syncThrow : JSValue → RawResult
  | outcome : Outcome → RawResult

/-- Modelled from the spec: the promise machinery settles a raw
invocation — a synchronous throw inside the operation becomes an
asynchronous rejection carrying the same error value. -/
def settleRaw : RawResult → Outcome
  | .syncThrow e => .error e
  | .outcome o => o

/-- Modelled from the spec: the dual calling convention.  With a trailing
callback the operation invokes it with `(error, result)`: `(null, r)` on
resolution `r`, `(e, undefined)` on rejection `e`.  Without a callback it
returns a promise settling to the same outcome. -/
def callOp (f : List JSValue → Outcome) (args : List JSValue)
    (withCallback : Bool) : CallResponse :=
  if withCallback then
    match f args with
    | .ok r => .callbackCalled .null r
    | .error e => .callbackCalled e .undefined
  else
    .promised (f args)

/-- How a call of an operation terminates at the call site: a synchronous
exception escaping to the caller, or an asynchronous delivery. -/
inductive SyncBehavior where
  | thrown : JSValue → SyncBehavior
  | asyncDelivered : CallResponse → SyncBehavior

/-- Modelled from the spec: invoking an operation whose raw behaviour is
`g`.  Every failure, including a synchronous throw inside the client, is
routed through the asynchronous channel; nothing escapes as a
synchronous exception. -/
def invokeOperation (g : List JSValue → RawResult) (args : List JSValue)
    (withCallback : Bool) : SyncBehavior :=
  .asyncDelivered (callOp (fun a => settleRaw (g a)) args withCallback)

/-- The five operation names of the manager. -/
inductive OpName where
  | create | getAll | get | update | delete
deriving DecidableEq

/-- Dispatch an operation name to the (possibly missing) prototype
method of the manager. -/
def ManagerState.dispatch (m : ManagerState) : OpName → Option (List JSValue → Outcome)
  | .create => m.create
  | .getAll => m.getAll
  | .get => m.get
  | .update => m.update
  | .delete => m.delete

/-- Modelled from the spec: executing one operation call against the
manager, returning the manager state the next call sees together with
the response.  Delegation writes no field of the manager; a missing
method surfaces as an asynchronously rejected call. -/
def ManagerState.step (m : ManagerState) (op : OpName) (args : List JSValue)
    (withCallback : Bool) : ManagerState × CallResponse :=
  match m.dispatch op with
  | some f => (m, callOp f args withCallback)
  | none => (m, .promised (.error .undefined))

/-- Run a sequence of operation calls, threading the manager state. -/
def runCalls (m : ManagerState) :
    List (OpName × List JSValue × Bool) → ManagerState × List CallResponse
  | [] => (m, [])
  | (op, args, wc) :: rest =>
      let r := m.step op args wc
      let rs := runCalls r.1 rest
      (rs.1, r.2 :: rs.2)

example : ∀ c : ClientBehavior, ManagerState.create ⟨c⟩ = some c.create :=
  fun _ => rfl

example : ∀ c : ClientBehavior, ManagerState.update ⟨c⟩ = some c.patch :=
  fun _ => rfl

/-! ## Helper lemmas -/

theorem string_length_eq_zero_iff (s : String) : s.length = 0 ↔ s = "" := by
  constructor
  · intro h
    cases s with
    | mk data =>
      cases data with
      | nil => rfl
      | cons c cs => simp [String.length] at h
  · intro h
    subst h
    rfl

theorem getProp_eq_undefined_of_not_obj (v : JSValue) (name : String)
    (h : ∀ fields, v ≠ .obj fields) : getProp v name = .undefined := by
  cases v <;> first
    | rfl
    | exact absurd rfl (h _)

theorem badOptions_obj (fields : List (String × JSValue)) :
    badOptions (.obj fields) = false := rfl

theorem guards_false_of_valid (options : JSValue) (s : String)
    (hb : getProp options baseUrlKey = .str s) (hs : s ≠ "") :
    badOptions options = false ∧ missingBaseUrl options = false ∧
      invalidBaseUrl options = false := by
  have hobj : ∃ fields, options = .obj fields := by
    cases options with
    | obj fields => exact ⟨fields, rfl⟩
    | _ => simp [getProp] at hb
  obtain ⟨fields, rfl⟩ := hobj
  refine ⟨rfl, ?_, ?_⟩
  · simp [missingBaseUrl, hb, isNullJS, isUndefinedJS]
  · simp only [invalidBaseUrl, hb, typeofJS, jsStringLength]
    have hlen : s.length ≠ 0 := fun h => hs ((string_length_eq_zero_iff s).mp h)
    simp [typeString, hlen]

theorem construct_ok_of_valid (options : JSValue) (s : String)
    (hb : getProp options baseUrlKey = .str s) (hs : s ≠ "") :
    OrganizationsManager.construct options =
      .ok { resource :=
        { restClient :=
            { urlTemplate := s ++ organizationsPath
              options := { headers := getProp options headersKey
                           query := { repeatParams := false } }
              tokenProvider := getProp options tokenProviderKey }
          retryConfig := getProp options retryKey } } := by
  obtain ⟨h1, h2, h3⟩ := guards_false_of_valid options s hb hs
  simp [OrganizationsManager.construct, h1, h2, h3, hb, jsStringValue]

theorem construct_ok_iff (options : JSValue) :
    (∃ m, OrganizationsManager.construct options = .ok m) ↔
      ∃ s, getProp options baseUrlKey = .str s ∧ s ≠ "" := by
  constructor
  · rintro ⟨m, hm⟩
    by_cases h1 : badOptions options
    · simp [OrganizationsManager.construct, h1] at hm
    by_cases h2 : missingBaseUrl options
    · simp [OrganizationsManager.construct, h1, h2] at hm
    by_cases h3 : invalidBaseUrl options
    · simp [OrganizationsManager.construct, h1, h2, h3] at hm
    have h3' : (typeofJS (getProp options baseUrlKey) != typeString
        || jsStringLength (getProp options baseUrlKey) == 0) = false := by
      simpa [invalidBaseUrl] using h3
    cases hv : getProp options baseUrlKey with
    | str s =>
        refine ⟨s, rfl, ?_⟩
        rw [hv] at h3'
        simp [typeofJS, typeString, jsStringLength] at h3'
        exact fun h => h3' (by rw [h]; rfl)
    | _ => rw [hv] at h3'; simp [typeofJS, typeString, jsStringLength] at h3'
  · rintro ⟨s, hb, hs⟩
    exact ⟨_, construct_ok_of_valid options s hb hs⟩

theorem error_iff_not_ok (options : JSValue) :
    (∃ e, OrganizationsManager.construct options = .error e) ↔
      ¬∃ m, OrganizationsManager.construct options = .ok m := by
  cases h : OrganizationsManager.construct options with
  | error e => simp [h]
  | ok m => simp [h]

/-! ## Claim theorems -/

/-- C1: the constructor throws an `ArgumentError` if and only if
`options` is null or not an object, or `options.baseUrl` is null or
undefined, or not a string, or the empty string; and whenever it throws
no manager instance exists, so the `resource` field is never assigned. -/
theorem construct_throws_iff_c1 (options : JSValue) :
    ((∃ e, OrganizationsManager.construct options = .error e) ↔
      (options = .null ∨ typeofJS options ≠ typeObject ∨
        getProp options baseUrlKey = .null ∨
        getProp options baseUrlKey = .undefined ∨
        (∀ s : String, getProp options baseUrlKey ≠ .str s) ∨
        getProp options baseUrlKey = .str (""))) ∧
    (∀ e, OrganizationsManager.construct options = .error e →
       ∀ m, OrganizationsManager.construct options ≠ .ok m) := by
  constructor
  · rw [error_iff_not_ok, construct_ok_iff]
    constructor
    · intro h
      by_cases hstr : ∃ s, getProp options baseUrlKey = .str s
      · obtain ⟨s, hsv⟩ := hstr
        have hse : s = "" := by
          by_contra hne
          exact h ⟨s, hsv, hne⟩
        subst hse
        exact Or.inr (Or.inr (Or.inr (Or.inr (Or.inr hsv))))
      · push_neg at hstr
        exact Or.inr (Or.inr (Or.inr (Or.inr (Or.inl hstr))))
    · rintro (h | h | h | h | h | h) ⟨s, hsv, hne⟩
      · subst h
        simp [getProp] at hsv
      · cases options <;> first
          | exact h rfl
          | simp [getProp] at hsv
      · rw [h] at hsv
        exact JSValue.noConfusion hsv
      · rw [h] at hsv
        exact JSValue.noConfusion hsv
      · exact h s hsv
      · rw [h] at hsv
        injection hsv with h2
        exact hne h2.symm
  · intro e he m hm
    rw [he] at hm
    exact Except.noConfusion hm

/-- Witness for C1 at the concrete input `null`: construction throws. -/
theorem construct_throws_iff_c1_witness :
    ∃ e, OrganizationsManager.construct .null = .error e :=
  (construct_throws_iff_c1 .null).1.mpr (Or.inl rfl)

/-- C10: the three validation checks run in a fixed order with three
distinct messages, and an array passed as `options` passes the object
check and fails with the missing-base-URL message. -/
theorem construct_guard_order_c10 (options : JSValue) :
    (badOptions options = true →
       OrganizationsManager.construct options = .error ⟨msgBadOptions⟩) ∧
    (badOptions options = false → missingBaseUrl options = true →
       OrganizationsManager.construct options = .error ⟨msgMissingBaseUrl⟩) ∧
    (badOptions options = false → missingBaseUrl options = false →
       invalidBaseUrl options = true →
       OrganizationsManager.construct options = .error ⟨msgInvalidBaseUrl⟩) ∧
    (∀ elems : List JSValue,
       badOptions (.arr elems) = false ∧
       OrganizationsManager.construct (.arr elems) = .error ⟨msgMissingBaseUrl⟩) ∧
    (msgBadOptions ≠ msgMissingBaseUrl ∧ msgBadOptions ≠ msgInvalidBaseUrl ∧
       msgMissingBaseUrl ≠ msgInvalidBaseUrl) := by
  refine ⟨?_, ?_, ?_, ?_, by decide⟩
  · intro h1
    simp [OrganizationsManager.construct, h1]
  · intro h1 h2
    simp [OrganizationsManager.construct, h1, h2]
  · intro h1 h2 h3
    simp [OrganizationsManager.construct, h1, h2, h3]
  · exact fun elems => ⟨rfl, rfl⟩

/-- Witness for C10 at the concrete input `{}` (an object without
`baseUrl`): the second guard fires with its message. -/
theorem construct_guard_order_c10_witness :
    OrganizationsManager.construct (.obj []) = .error ⟨msgMissingBaseUrl⟩ :=
  (construct_guard_order_c10 (.obj [])).2.1 rfl rfl

/-- C3: for every `options` with a non-empty string `baseUrl`, the inner
REST client is built with URL template `baseUrl + '/organizations/:id'`,
with the forwarded `options.headers`, a query configuration with
`repeatParams` false, and `options.tokenProvider` as third constructor
argument. -/
theorem construct_client_config_c3 (options : JSValue) (s : String)
    (hb : getProp options baseUrlKey = .str s) (hs : s ≠ "") :
    ∃ m, OrganizationsManager.construct options = .ok m ∧
      m.resource.restClient.urlTemplate = s ++ organizationsPath ∧
      m.resource.restClient.options.headers = getProp options headersKey ∧
      m.resource.restClient.options.query.repeatParams = false ∧
      m.resource.restClient.tokenProvider = getProp options tokenProviderKey :=
  ⟨_, construct_ok_of_valid options s hb hs, rfl, rfl, rfl, rfl⟩

/-- The sample base URL used by concrete witnesses. -/
def sampleBaseUrl : String := "https://tenant.auth0.com"

/-- A concrete well-formed options object used by witnesses. -/
def sampleOptions : JSValue :=
  .obj [(baseUrlKey, .str sampleBaseUrl), (headersKey, .obj []),
        (tokenProviderKey, .func), (retryKey, .boolean true)]

/-- Witness for C3 at a concrete options object. -/
theorem construct_client_config_c3_witness :
    ∃ m, OrganizationsManager.construct sampleOptions = .ok m ∧
      m.resource.restClient.urlTemplate = sampleBaseUrl ++ organizationsPath ∧
      m.resource.restClient.options.headers = getProp sampleOptions headersKey ∧
      m.resource.restClient.options.query.repeatParams = false ∧
      m.resource.restClient.tokenProvider = getProp sampleOptions tokenProviderKey :=
  construct_client_config_c3 sampleOptions sampleBaseUrl rfl (by decide)

/-- C4: the inner client is wrapped in a `RetryRestClient` carrying
`options.retry` unchanged, and construction succeeds for every shape of
`headers`, `tokenProvider` and `retry` (none of the three is
validated). -/
theorem retry_passthrough_c4 (options : JSValue) (s : String)
    (hb : getProp options baseUrlKey = .str s) (hs : s ≠ "") :
    (∃ m, OrganizationsManager.construct options = .ok m ∧
       m.resource.retryConfig = getProp options retryKey) ∧
    (∀ h t r : JSValue,
       ∃ m, OrganizationsManager.construct
           (.obj [(baseUrlKey, .str s), (headersKey, h),
                  (tokenProviderKey, t), (retryKey, r)]) = .ok m ∧
         m.resource.retryConfig = r ∧
         m.resource.restClient.options.headers = h ∧
         m.resource.restClient.tokenProvider = t) := by
  constructor
  · exact ⟨_, construct_ok_of_valid options s hb hs, rfl⟩
  · intro h t r
    refine ⟨_, construct_ok_of_valid _ s ?_ hs, rfl, rfl, rfl⟩
    rfl

/-- Witness for C4 at a concrete options object. -/
theorem retry_passthrough_c4_witness :
    ∃ m, OrganizationsManager.construct sampleOptions = .ok m ∧
      m.resource.retryConfig = getProp sampleOptions retryKey :=
  (retry_passthrough_c4 sampleOptions sampleBaseUrl rfl (by decide)).1

/-- C8: for every `options` whose `baseUrl` is a non-empty string,
construction succeeds, and on every constructed manager all five
operations are present and callable (their prototype lookup yields a
function). -/
theorem construct_succeeds_ops_callable_c8 (options : JSValue) (s : String)
    (hb : getProp options baseUrlKey = .str s) (hs : s ≠ "") :
    (∃ m, OrganizationsManager.construct options = .ok m) ∧
    (∀ st : ManagerState,
       st.create.isSome = true ∧ st.getAll.isSome = true ∧
       st.get.isSome = true ∧ st.update.isSome = true ∧
       st.delete.isSome = true) :=
  ⟨⟨_, construct_ok_of_valid options s hb hs⟩,
   fun _ => ⟨rfl, rfl, rfl, rfl, rfl⟩⟩

/-- Witness for C8 at a concrete options object. -/
theorem construct_succeeds_ops_callable_c8_witness :
    ∃ m, OrganizationsManager.construct sampleOptions = .ok m :=
  (construct_succeeds_ops_callable_c8 sampleOptions sampleBaseUrl rfl (by decide)).1

/-- C2: each of the five exposed operations is the very method of the
wrapped client it delegates to — `create` to `resource.create`, `getAll`
to `resource.getAll`, `get` to `resource.get`, `update` to
`resource.patch`, `delete` to `resource.delete` — so every argument list
is forwarded unchanged and the result returned unchanged. -/
theorem ops_passthrough_c2 (st : ManagerState) :
    st.create = some st.resource.create ∧
    st.getAll = some st.resource.getAll ∧
    st.get = some st.resource.get ∧
    st.update = some st.resource.patch ∧
    st.delete = some st.resource.delete :=
  ⟨rfl, rfl, rfl, rfl, rfl⟩

/-- C5: the two calling styles are driven by one and the same outcome of
the delegated call: without a callback the operation returns a promise
settling to that outcome; with a callback it invokes it with
`(null, result)` on resolution and `(error, undefined)` on rejection. -/
theorem dual_calling_convention_c5 (f : List JSValue → Outcome)
    (args : List JSValue) :
    (callOp f args false = .promised (f args)) ∧
    (∀ r, f args = .ok r → callOp f args true = .callbackCalled .null r) ∧
    (∀ e, f args = .error e →
       callOp f args true = .callbackCalled e .undefined) := by
  refine ⟨rfl, ?_, ?_⟩
  · intro r h
    simp [callOp, h]
  · intro e h
    simp [callOp, h]

/-- Witness for C5 at a concrete operation and argument list. -/
theorem dual_calling_convention_c5_witness :
    callOp (fun _ => Except.ok (JSValue.boolean true)) [] true
      = .callbackCalled .null (.boolean true) :=
  (dual_calling_convention_c5 (fun _ => Except.ok (JSValue.boolean true))
      []).2.1 (.boolean true) rfl

/-- C6: every failure of the delegated call — an asynchronous rejection
or even a synchronous throw inside it — is delivered through the
asynchronous channel carrying the very same error value, and no
operation call ever terminates in a synchronous throw. -/
theorem errors_propagate_unchanged_c6 (g : List JSValue → RawResult)
    (args : List JSValue) (withCallback : Bool) :
    (∀ e, invokeOperation g args withCallback ≠ .thrown e) ∧
    (∀ e, g args = .outcome (.error e) →
       invokeOperation g args withCallback =
         .asyncDelivered (if withCallback then .callbackCalled e .undefined
           else .promised (.error e))) ∧
    (∀ e, g args = .syncThrow e →
       invokeOperation g args withCallback =
         .asyncDelivered (if withCallback then .callbackCalled e .undefined
           else .promised (.error e))) := by
  refine ⟨fun e => by simp [invokeOperation], ?_, ?_⟩
  · intro e h
    cases withCallback <;> simp [invokeOperation, callOp, settleRaw, h]
  · intro e h
    cases withCallback <;> simp [invokeOperation, callOp, settleRaw, h]

/-- Witness for C6 at a concrete synchronously-throwing body. -/
theorem errors_propagate_unchanged_c6_witness :
    invokeOperation (fun _ => RawResult.syncThrow (JSValue.number 7)) [] false
      = .asyncDelivered (.promised (.error (.number 7))) :=
  (errors_propagate_unchanged_c6 (fun _ => RawResult.syncThrow (JSValue.number 7))
      [] false).2.2 (.number 7) rfl

/-- C7: an `ArgumentError` arises only synchronously during construction
— every construction error is one of the three constructor messages —
and no operation call ever raises anything synchronously after a
successful construction. -/
theorem argument_error_only_construction_c7 :
    (∀ (options : JSValue) (e : ArgumentError),
       OrganizationsManager.construct options = .error e →
       e = ⟨msgBadOptions⟩ ∨ e = ⟨msgMissingBaseUrl⟩ ∨ e = ⟨msgInvalidBaseUrl⟩) ∧
    (∀ (g : List JSValue → RawResult) (args : List JSValue) (wc : Bool)
       (e : JSValue), invokeOperation g args wc ≠ .thrown e) := by
  constructor
  · intro options e h
    by_cases h1 : badOptions options
    · simp [OrganizationsManager.construct, h1] at h
      exact Or.inl h.symm
    by_cases h2 : missingBaseUrl options
    · simp [OrganizationsManager.construct, h1, h2] at h
      exact Or.inr (Or.inl h.symm)
    by_cases h3 : invalidBaseUrl options
    · simp [OrganizationsManager.construct, h1, h2, h3] at h
      exact Or.inr (Or.inr h.symm)
    · simp [OrganizationsManager.construct, h1, h2, h3] at h
  · intro g args wc e
    simp [invokeOperation]

/-- Witness for C7 at the concrete input `null`. -/
theorem argument_error_only_construction_c7_witness :
    (⟨msgBadOptions⟩ : ArgumentError) = ⟨msgBadOptions⟩ ∨
      (⟨msgBadOptions⟩ : ArgumentError) = ⟨msgMissingBaseUrl⟩ ∨
      (⟨msgBadOptions⟩ : ArgumentError) = ⟨msgInvalidBaseUrl⟩ :=
  argument_error_only_construction_c7.1 .null ⟨msgBadOptions⟩ rfl

theorem step_fst (m : ManagerState) (op : OpName) (args : List JSValue)
    (wc : Bool) : (m.step op args wc).1 = m := by
  cases h : m.dispatch op <;> simp [ManagerState.step, h]

/-- C9: no operation mutates the manager — the state after any call is
the state before it — and the result of each call in any sequence equals
the result of the same call issued on the initial manager alone. -/
theorem ops_stateless_c9 (m : ManagerState) (op : OpName)
    (args : List JSValue) (wc : Bool)
    (calls : List (OpName × List JSValue × Bool)) :
    (m.step op args wc).1 = m ∧
    runCalls m calls = (m, calls.map fun c => (m.step c.1 c.2.1 c.2.2).2) := by
  refine ⟨step_fst m op args wc, ?_⟩
  induction calls with
  | nil => rfl
  | cons c rest ih =>
      simp only [runCalls, step_fst, ih, List.map]

